import Mathlib

/-!
Verification development for the potv3 guild-music-bot repository.

This file shallowly embeds the queue engine of `src/pot.rs`
(`SystemPlaylist` and its operations), the playback-advance state machine
of `src/interaction/commands.rs` (`consume_and_play`,
`consume_and_play_on_end`, `song_skip`), the URL classifier
(`youtube_url_extractor`) and the paginated playlist lookup of
`src/yt.rs` (`YoutubeAPI::playlist` / `playlist_get_items`), and proves
the specified properties of those operations.

Modelling conventions:
a guild id (`Id<GuildMarker>`) is a `Nat`; the two `HashMap`s inside
`SystemPlaylist` are total functions `GuildId -> Option _`; effectful
calls (the YouTube API, the yt-dlp subprocess, `get_media`, outbound
chat messages, `call.play/stop`, `songbird.remove`) are replaced by
oracles passed as arguments (for resolution: the already-resolved
`Except` result; for media materialization: a `Nat -> Bool` oracle
giving the outcome of the n-th `get_media` attempt), and the messages a
code path would send are collected in the returned record. Rust
`Vec::remove(0)` is head removal; Rust slice `&v[i..]` is `List.drop i`.
-/

abbrev GuildId := Nat

/-- Backend selector for the external downloader, from `pot.rs` lines 25-29. -/
inductive YOUTUBE_DL_BACKEND where
  | YT_DLP
  | YOUTUBE_DL
deriving DecidableEq

/-- A resolved playable unit, from `pot.rs` lines 526-540 (`PlaylistItem`). -/
structure PlaylistItem where
  id : String
  title : String
  original_url : String
  extractor : String
  thumbnail : Option String
  duration : Option Float
  playlist_id : Option String
  webpage_url : Option String
  is_live : Option Bool
  was_live : Option Bool
  backend : Option YOUTUBE_DL_BACKEND

/-- The observable parts of a parsed `url::Url`: host, path segments and
query pairs. `host = none` models a URL without a host; for a URL with a
host the path-segment list is what `url.path_segments()` collects
(never empty for such URLs, but the model stays total). -/
structure UrlModel where
  host : Option String
  pathSegments : List String
  queryPairs : List (String × String)

/-- First-occurrence-wins query-pair lookup table, from `pot.rs` lines
125-133 (`query_pairs_to_hashmap`; `or_insert` keeps the first value
seen for a key). -/
def query_pairs_to_hashmap (url : UrlModel) (key : String) : Option String :=
  (url.queryPairs.find? (fun p => p.1 == key)).map (fun p => p.2)

/-- Rust `str::ends_with`, modelled on the underlying character list so
that it evaluates inside the kernel. -/
def strEndsWith (s suffix : String) : Bool :=
  suffix.data.isSuffixOf s.data

/-- Classification result of `youtube_url_extractor`, from `pot.rs` lines 59-65. -/
inductive YoutubeUrlType where
  | Video (id : String)
  | Playlist (id : String)
  | Short (id : String)
  | NoneType
deriving DecidableEq

/-- Outcome of running `youtube_url_extractor`: either a classification, or
an index-out-of-bounds panic from `path_segments[0]` / `path_segments[1]`. -/
inductive ExtractOutcome where
  | ok (t : YoutubeUrlType)
  | panicked
deriving DecidableEq

/-- Embed of `youtube_url_extractor`, `pot.rs` lines 67-92. Rust slice
indexing `path_segments[i]` panics when out of bounds; the model returns
`ExtractOutcome.panicked` there. -/
def youtube_url_extractor (url : UrlModel) : ExtractOutcome :=
  match url.host with
  | some url_str =>
    let path_segments := url.pathSegments
    if strEndsWith url_str "youtube.com" || strEndsWith url_str "youtu.be" then
      match query_pairs_to_hashmap url "list" with
      | some list_id => ExtractOutcome.ok (YoutubeUrlType.Playlist list_id)
      | none =>
        match query_pairs_to_hashmap url "v" with
        | some v_id => ExtractOutcome.ok (YoutubeUrlType.Video v_id)
        | none =>
          match path_segments[0]? with
          | none => ExtractOutcome.panicked
          | some seg0 =>
            if seg0 = "shorts" then
              match path_segments[1]? with
              | none => ExtractOutcome.panicked
              | some seg1 => ExtractOutcome.ok (YoutubeUrlType.Short seg1)
            else
              ExtractOutcome.ok YoutubeUrlType.NoneType
    else
      ExtractOutcome.ok YoutubeUrlType.NoneType
  | none => ExtractOutcome.ok YoutubeUrlType.NoneType

/-- Classified play input, from `pot.rs` lines 46-51. -/
inductive PotPlayInputType where
  | Url (u : UrlModel)
  | SpotifyUrl (u : UrlModel)
  | Search (q : String)

/-- Embed of `PotPlayInputType::is_url`, `pot.rs` lines 53-57: only the
plain `Url` variant counts (`matches!(*self, Self::Url(_))`). -/
def PotPlayInputType.is_url : PotPlayInputType → Bool
  | PotPlayInputType.Url _ => true
  | _ => false

/-- Functional update of a guild-keyed map, modelling `HashMap::insert` /
writing through `get_mut`. -/
def mapUpdate {α : Type} (m : GuildId → Option α) (g : GuildId) (v : α) :
    GuildId → Option α :=
  fun g' => if g' = g then some v else m g'

/-- The queue engine state, from `pot.rs` lines 40-44: per-guild item
queues and per-guild playing flags. -/
structure SystemPlaylist where
  guilds_playlists : GuildId → Option (List PlaylistItem)
  guilds_playing : GuildId → Option Bool

namespace SystemPlaylist

/-- Embed of `SystemPlaylist::new`, `pot.rs` lines 162-167. -/
def new : SystemPlaylist :=
  { guilds_playlists := fun _ => none, guilds_playing := fun _ => none }

/-- Embed of `SystemPlaylist::set_status`, `pot.rs` lines 169-179. Both
Rust branches (key present / absent) store `is_playing` under the key;
they differ only in a log line. -/
def set_status (sp : SystemPlaylist) (g : GuildId) (is_playing : Bool) :
    SystemPlaylist :=
  { sp with guilds_playing := mapUpdate sp.guilds_playing g is_playing }

/-- Embed of `SystemPlaylist::is_playing`, `pot.rs` lines 181-187. -/
def is_playing (sp : SystemPlaylist) (g : GuildId) : Bool :=
  match sp.guilds_playing g with
  | some b => b
  | none => false

/-- The queue a guild currently has (empty when the guild was never seen);
observer used to state properties. -/
def queueOf (sp : SystemPlaylist) (g : GuildId) : List PlaylistItem :=
  (sp.guilds_playlists g).getD []

/-- Embed of `SystemPlaylist::consume`, `pot.rs` lines 190-202: removes
and returns the head of the guild's queue (`Vec::remove(0)`), or `none`
when the guild is unknown or its queue is empty. Returns the resulting
state alongside. -/
def consume (sp : SystemPlaylist) (g : GuildId) : Option PlaylistItem × SystemPlaylist :=
  match sp.guilds_playlists g with
  | some guild_playlist =>
    match guild_playlist with
    | [] => (none, sp)
    | x :: rest =>
      (some x, { sp with guilds_playlists := mapUpdate sp.guilds_playlists g rest })
  | none => (none, sp)

/-- Embed of the state-updating tail of `SystemPlaylist::add`, `pot.rs`
lines 205-272. The network/subprocess resolution of the input (the
`match input { ... }` of lines 219-238) is an effect; its outcome is
passed in as `playlist_result`. `is_url` is computed from the input as
in line 215. On `Ok` with zero items the code returns
`Err("No items in playlist")` before touching any map; otherwise it
creates the guild's queue if absent, then appends all resolved items
(when `is_url`) or pushes only the first resolved item (otherwise), and
returns the count added plus the appended tail slice `&v[index..]`. -/
def add (sp : SystemPlaylist) (g : GuildId) (input : PotPlayInputType)
    (playlist_result : Except String (List PlaylistItem)) :
    Except String (Nat × List PlaylistItem) × SystemPlaylist :=
  let is_url := input.is_url
  match playlist_result with
  | Except.ok new_playlist_items =>
    match new_playlist_items with
    | [] => (Except.error "No items in playlist", sp)
    | first :: others =>
      let sp1 : SystemPlaylist :=
        if (sp.guilds_playlists g).isSome then sp
        else { sp with guilds_playlists := mapUpdate sp.guilds_playlists g [] }
      let guild_playlist := sp1.queueOf g
      if is_url then
        let appended := guild_playlist ++ first :: others
        let index := appended.length - (first :: others).length
        (Except.ok ((first :: others).length, appended.drop index),
         { sp1 with guilds_playlists := mapUpdate sp1.guilds_playlists g appended })
      else
        let appended := guild_playlist ++ [first]
        let index := appended.length - 1
        (Except.ok (1, appended.drop index),
         { sp1 with guilds_playlists := mapUpdate sp1.guilds_playlists g appended })
  | Except.error e => (Except.error e, sp)

/-- Embed of `SystemPlaylist::clear`, `pot.rs` lines 275-284: empties the
guild's queue in place and returns `true`, or returns `false` when the
guild has no queue entry; the (now empty) entry is kept, not removed. -/
def clear (sp : SystemPlaylist) (g : GuildId) : Bool × SystemPlaylist :=
  if (sp.guilds_playlists g).isSome then
    (true, { sp with guilds_playlists := mapUpdate sp.guilds_playlists g [] })
  else
    (false, sp)

end SystemPlaylist

namespace SystemPlaylist

theorem queueOf_set_status (sp : SystemPlaylist) (g g' : GuildId) (b : Bool) :
    (sp.set_status g b).queueOf g' = sp.queueOf g' := rfl

theorem guilds_playlists_set_status (sp : SystemPlaylist) (g : GuildId) (b : Bool) :
    (sp.set_status g b).guilds_playlists = sp.guilds_playlists := rfl

theorem is_playing_set_status_self (sp : SystemPlaylist) (g : GuildId) (b : Bool) :
    (sp.set_status g b).is_playing g = b := by
  simp [is_playing, set_status, mapUpdate]

theorem consume_some_queue {sp : SystemPlaylist} {g : GuildId} {x : PlaylistItem}
    {sp1 : SystemPlaylist} (h : sp.consume g = (some x, sp1)) :
    sp.queueOf g = x :: sp1.queueOf g := by
  unfold consume at h
  cases hq : sp.guilds_playlists g with
  | none => rw [hq] at h; simp at h
  | some q =>
    rw [hq] at h
    cases q with
    | nil => simp at h
    | cons y rest =>
      simp only [Prod.mk.injEq, Option.some.injEq] at h
      obtain ⟨hx, hsp⟩ := h
      subst hx hsp
      simp [queueOf, hq, mapUpdate]

theorem consume_some_playing {sp : SystemPlaylist} {g : GuildId} {x : PlaylistItem}
    {sp1 : SystemPlaylist} (h : sp.consume g = (some x, sp1)) :
    sp1.guilds_playing = sp.guilds_playing := by
  unfold consume at h
  cases hq : sp.guilds_playlists g with
  | none => rw [hq] at h; simp at h
  | some q =>
    rw [hq] at h
    cases q with
    | nil => simp at h
    | cons y rest =>
      simp only [Prod.mk.injEq, Option.some.injEq] at h
      rw [← h.2]

theorem consume_none_state {sp : SystemPlaylist} {g : GuildId} {sp1 : SystemPlaylist}
    (h : sp.consume g = (none, sp1)) : sp1 = sp := by
  unfold consume at h
  cases hq : sp.guilds_playlists g with
  | none => rw [hq] at h; exact (Prod.mk.injEq .. ▸ h).2.symm ▸ rfl
  | some q =>
    rw [hq] at h
    cases q with
    | nil =>
      simp only [Prod.mk.injEq] at h
      rw [h.2]
    | cons y rest => simp at h

end SystemPlaylist

/-- Observable outcome of one playback-advance run (`consume_and_play` or
`consume_and_play_on_end` in `commands.rs`): the item whose playback was
started (none on queue exhaustion, matching the function returning
`None`), the resulting queue-engine state, the items for which a
"Cannot play" notice was sent (in emission order), whether the run
itself sent the "queue finished" notice, and the number of `get_media`
attempts made. -/
structure AdvanceResult where
  started : Option PlaylistItem
  state : SystemPlaylist
  cannotPlay : List PlaylistItem
  queueFinishedNotice : Bool
  attempts : Nat

/-- Embed of `consume_and_play`, `commands.rs` lines 438-483. `mat i`
is the outcome of the i-th `get_media` call of the run (the media
materialization oracle). On a consumed item the playing flag is set
true, then on materialization failure it is set false, a "Cannot play"
notice is sent and the run recurses; on an empty queue the "queue
finished" notice is sent and the flag is set false. Terminates because
each recursion step consumes one queue item. -/
def consume_and_play (mat : Nat → Bool) (g : GuildId) (sp : SystemPlaylist)
    (i : Nat) : AdvanceResult :=
  match h : sp.consume g with
  | (some playlist_item, sp1) =>
    if mat i then
      { started := some playlist_item
        state := sp1.set_status g true
        cannotPlay := []
        queueFinishedNotice := false
        attempts := 1 }
    else
      let r := consume_and_play mat g ((sp1.set_status g true).set_status g false) (i + 1)
      { started := r.started
        state := r.state
        cannotPlay := playlist_item :: r.cannotPlay
        queueFinishedNotice := r.queueFinishedNotice
        attempts := r.attempts + 1 }
  | (none, sp1) =>
    { started := none
      state := sp1.set_status g false
      cannotPlay := []
      queueFinishedNotice := true
      attempts := 0 }
termination_by (sp.queueOf g).length
decreasing_by
  have hk := SystemPlaylist.consume_some_queue h
  simp [SystemPlaylist.queueOf_set_status, hk]

/-- Embed of `consume_and_play_on_end`, `commands.rs` lines 485-515: same
consume/materialize/retry structure, but the playing flag is only
touched on queue exhaustion (set false), and no "queue finished" notice
is sent by the function itself (its caller, the track-end notifier at
lines 37-53, sends it and releases the voice connection). -/
def consume_and_play_on_end (mat : Nat → Bool) (g : GuildId) (sp : SystemPlaylist)
    (i : Nat) : AdvanceResult :=
  match h : sp.consume g with
  | (some item, sp1) =>
    if mat i then
      { started := some item
        state := sp1
        cannotPlay := []
        queueFinishedNotice := false
        attempts := 1 }
    else
      let r := consume_and_play_on_end mat g sp1 (i + 1)
      { started := r.started
        state := r.state
        cannotPlay := item :: r.cannotPlay
        queueFinishedNotice := r.queueFinishedNotice
        attempts := r.attempts + 1 }
  | (none, sp1) =>
    { started := none
      state := sp1.set_status g false
      cannotPlay := []
      queueFinishedNotice := false
      attempts := 0 }
termination_by (sp.queueOf g).length
decreasing_by
  have hk := SystemPlaylist.consume_some_queue h
  simp [hk]

theorem consume_and_play_of_none {mat : Nat → Bool} {g : GuildId}
    {sp sp1 : SystemPlaylist} {i : Nat} (h : sp.consume g = (none, sp1)) :
    consume_and_play mat g sp i =
      { started := none
        state := sp1.set_status g false
        cannotPlay := []
        queueFinishedNotice := true
        attempts := 0 } := by
  rw [consume_and_play]
  split
  case _ x sp2 heq => rw [h] at heq; simp at heq
  case _ sp2 heq =>
    rw [h] at heq
    simp only [Prod.mk.injEq] at heq
    rw [heq.2]

theorem consume_and_play_of_some_ok {mat : Nat → Bool} {g : GuildId}
    {sp sp1 : SystemPlaylist} {i : Nat} {x : PlaylistItem}
    (h : sp.consume g = (some x, sp1)) (hm : mat i = true) :
    consume_and_play mat g sp i =
      { started := some x
        state := sp1.set_status g true
        cannotPlay := []
        queueFinishedNotice := false
        attempts := 1 } := by
  rw [consume_and_play]
  split
  case _ y sp2 heq =>
    rw [h] at heq
    simp only [Prod.mk.injEq, Option.some.injEq] at heq
    rw [heq.1, heq.2, hm]
    simp
  case _ sp2 heq => rw [h] at heq; simp at heq

theorem consume_and_play_of_some_fail {mat : Nat → Bool} {g : GuildId}
    {sp sp1 : SystemPlaylist} {i : Nat} {x : PlaylistItem}
    (h : sp.consume g = (some x, sp1)) (hm : mat i = false) :
    consume_and_play mat g sp i =
      (let r := consume_and_play mat g ((sp1.set_status g true).set_status g false) (i + 1)
       { started := r.started
         state := r.state
         cannotPlay := x :: r.cannotPlay
         queueFinishedNotice := r.queueFinishedNotice
         attempts := r.attempts + 1 }) := by
  rw [consume_and_play]
  split
  case _ y sp2 heq =>
    rw [h] at heq
    simp only [Prod.mk.injEq, Option.some.injEq] at heq
    rw [heq.1, heq.2, hm]
    simp
  case _ sp2 heq => rw [h] at heq; simp at heq

theorem consume_and_play_on_end_of_none {mat : Nat → Bool} {g : GuildId}
    {sp sp1 : SystemPlaylist} {i : Nat} (h : sp.consume g = (none, sp1)) :
    consume_and_play_on_end mat g sp i =
      { started := none
        state := sp1.set_status g false
        cannotPlay := []
        queueFinishedNotice := false
        attempts := 0 } := by
  rw [consume_and_play_on_end]
  split
  case _ x sp2 heq => rw [h] at heq; simp at heq
  case _ sp2 heq =>
    rw [h] at heq
    simp only [Prod.mk.injEq] at heq
    rw [heq.2]

theorem consume_and_play_on_end_of_some_ok {mat : Nat → Bool} {g : GuildId}
    {sp sp1 : SystemPlaylist} {i : Nat} {x : PlaylistItem}
    (h : sp.consume g = (some x, sp1)) (hm : mat i = true) :
    consume_and_play_on_end mat g sp i =
      { started := some x
        state := sp1
        cannotPlay := []
        queueFinishedNotice := false
        attempts := 1 } := by
  rw [consume_and_play_on_end]
  split
  case _ y sp2 heq =>
    rw [h] at heq
    simp only [Prod.mk.injEq, Option.some.injEq] at heq
    rw [heq.1, heq.2, hm]
    simp
  case _ sp2 heq => rw [h] at heq; simp at heq

theorem consume_and_play_on_end_of_some_fail {mat : Nat → Bool} {g : GuildId}
    {sp sp1 : SystemPlaylist} {i : Nat} {x : PlaylistItem}
    (h : sp.consume g = (some x, sp1)) (hm : mat i = false) :
    consume_and_play_on_end mat g sp i =
      (let r := consume_and_play_on_end mat g sp1 (i + 1)
       { started := r.started
         state := r.state
         cannotPlay := x :: r.cannotPlay
         queueFinishedNotice := r.queueFinishedNotice
         attempts := r.attempts + 1 }) := by
  rw [consume_and_play_on_end]
  split
  case _ y sp2 heq =>
    rw [h] at heq
    simp only [Prod.mk.injEq, Option.some.injEq] at heq
    rw [heq.1, heq.2, hm]
    simp
  case _ sp2 heq => rw [h] at heq; simp at heq

/-- Observable outcome of `song_skip`: the reply string, the resulting
queue-engine state, the "Cannot play" notices emitted while advancing,
whether `call.stop()` ran, whether the voice connection was released
(`songbird.remove`), and the item playback moved to (if any). -/
structure SkipResult where
  message : String
  state : SystemPlaylist
  cannotPlay : List PlaylistItem
  stopped : Bool
  connectionReleased : Bool
  startedItem : Option PlaylistItem

/-- Embed of `song_skip`, `commands.rs` lines 517-538: stop playback
unconditionally; if the guild's playing flag is set, advance via
`consume_and_play` (releasing the voice connection and answering
"Queue ended" when it exhausts the queue, answering "Song skipped"
otherwise); if the flag is unset, answer "Nothing to play" and leave
all state untouched. -/
def song_skip (mat : Nat → Bool) (g : GuildId) (sp : SystemPlaylist) : SkipResult :=
  if sp.is_playing g then
    let r := consume_and_play mat g sp 0
    match r.started with
    | some item =>
      { message := "Song skipped"
        state := r.state
        cannotPlay := r.cannotPlay
        stopped := true
        connectionReleased := false
        startedItem := some item }
    | none =>
      { message := "Queue ended"
        state := r.state
        cannotPlay := r.cannotPlay
        stopped := true
        connectionReleased := true
        startedItem := none }
  else
    { message := "Nothing to play"
      state := sp
      cannotPlay := []
      stopped := true
      connectionReleased := false
      startedItem := none }

/-- Spec-side observer: the sequence of items produced by calling
`SystemPlaylist.consume` repeatedly until it returns `none`
("successive consume calls"). -/
def drain (sp : SystemPlaylist) (g : GuildId) : List PlaylistItem :=
  match h : sp.consume g with
  | (some x, sp1) => x :: drain sp1 g
  | (none, _) => []
termination_by (sp.queueOf g).length
decreasing_by
  have hk := SystemPlaylist.consume_some_queue h
  simp [hk]

namespace SystemPlaylist

theorem mapUpdate_same {α : Type} (m : GuildId → Option α) (g : GuildId) (a b : α) :
    mapUpdate (mapUpdate m g a) g b = mapUpdate m g b := by
  funext g'
  by_cases hg : g' = g <;> simp [mapUpdate, hg]

theorem mapUpdate_self {α : Type} (m : GuildId → Option α) (g : GuildId) (a : α) :
    mapUpdate m g a g = some a := by
  simp [mapUpdate]

theorem consume_of_queue_nil {sp : SystemPlaylist} {g : GuildId}
    (hq : sp.queueOf g = []) : sp.consume g = (none, sp) := by
  unfold consume
  cases hpl : sp.guilds_playlists g with
  | none => rfl
  | some q =>
    have : q = [] := by simpa [queueOf, hpl] using hq
    rw [this]

theorem consume_of_queue_cons {sp : SystemPlaylist} {g : GuildId}
    {x : PlaylistItem} {rest : List PlaylistItem} (hq : sp.queueOf g = x :: rest) :
    sp.consume g =
      (some x, { sp with guilds_playlists := mapUpdate sp.guilds_playlists g rest }) := by
  unfold consume
  cases hpl : sp.guilds_playlists g with
  | none => simp [queueOf, hpl] at hq
  | some q =>
    have : q = x :: rest := by simpa [queueOf, hpl] using hq
    rw [this]

theorem queueOf_mapUpdate (sp : SystemPlaylist) (g : GuildId) (q : List PlaylistItem) :
    SystemPlaylist.queueOf
      { sp with guilds_playlists := mapUpdate sp.guilds_playlists g q } g = q := by
  simp [queueOf, mapUpdate]

end SystemPlaylist

/-- Position of the first materialization attempt that succeeds when the
oracle `mat` is consulted at indices `i`, `i + 1`, ... down the list;
`none` when every attempt for the list fails. Proof-side closed-form
helper for the advance recursion. -/
def firstSuccess (mat : Nat → Bool) (i : Nat) : List PlaylistItem → Option Nat
  | [] => none
  | _ :: rest => if mat i then some 0 else (firstSuccess mat (i + 1) rest).map (· + 1)

theorem firstSuccess_lt {mat : Nat → Bool} {i K : Nat} :
    ∀ {q : List PlaylistItem}, firstSuccess mat i q = some K → K < q.length := by
  intro q
  induction q generalizing i K with
  | nil => intro h; simp [firstSuccess] at h
  | cons x rest ih =>
    intro h
    by_cases hm : mat i
    · simp only [firstSuccess, hm, if_true, Option.some.injEq] at h
      subst h
      simp
    · simp [firstSuccess, hm] at h
      obtain ⟨K', hK', rfl⟩ := h
      have := ih (i := i + 1) hK'
      simpa using Nat.succ_lt_succ this

theorem firstSuccess_of_leading_failures {mat : Nat → Bool} {K : Nat} :
    ∀ {q : List PlaylistItem} {i : Nat}, (∀ j, j < K → mat (i + j) = false) →
      K < q.length → mat (i + K) = true → firstSuccess mat i q = some K := by
  induction K with
  | zero =>
    intro q i _ hlen hK
    cases q with
    | nil => simp at hlen
    | cons x rest => simpa [firstSuccess] using hK
  | succ K ih =>
    intro q i hf hlen hK
    cases q with
    | nil => simp at hlen
    | cons x rest =>
      have h0 : mat i = false := by simpa using hf 0 (Nat.succ_pos K)
      have htail : firstSuccess mat (i + 1) rest = some K := by
        apply ih
        · intro j hj
          have := hf (j + 1) (by omega)
          simpa [Nat.add_assoc, Nat.add_comm 1 j] using this
        · simpa using Nat.lt_of_succ_lt_succ hlen
        · have : i + 1 + K = i + (K + 1) := by omega
          rw [this]
          exact hK
      simp [firstSuccess, h0, htail]

theorem firstSuccess_of_all_failures {mat : Nat → Bool} :
    ∀ {q : List PlaylistItem} {i : Nat}, (∀ j, j < q.length → mat (i + j) = false) →
      firstSuccess mat i q = none := by
  intro q
  induction q with
  | nil => intro i _; rfl
  | cons x rest ih =>
    intro i hf
    have h0 : mat i = false := by simpa using hf 0 (by simp)
    have htail : firstSuccess mat (i + 1) rest = none := by
      apply ih
      intro j hj
      have := hf (j + 1) (by simpa using Nat.succ_lt_succ hj)
      simpa [Nat.add_assoc, Nat.add_comm 1 j] using this
    simp [firstSuccess, h0, htail]

theorem consume_and_play_closed (mat : Nat → Bool) (g : GuildId) :
    ∀ (q : List PlaylistItem) (i : Nat) (sp : SystemPlaylist), sp.queueOf g = q →
    consume_and_play mat g sp i =
      match firstSuccess mat i q with
      | some K =>
        { started := q[K]?
          state := { guilds_playlists := mapUpdate sp.guilds_playlists g (q.drop (K + 1)),
                     guilds_playing := mapUpdate sp.guilds_playing g true }
          cannotPlay := q.take K
          queueFinishedNotice := false
          attempts := K + 1 }
      | none =>
        { started := none
          state := { guilds_playlists := if q.isEmpty then sp.guilds_playlists
                       else mapUpdate sp.guilds_playlists g [],
                     guilds_playing := mapUpdate sp.guilds_playing g false }
          cannotPlay := q
          queueFinishedNotice := true
          attempts := q.length } := by
  intro q
  induction q with
  | nil =>
    intro i sp hq
    rw [consume_and_play_of_none (SystemPlaylist.consume_of_queue_nil hq)]
    simp [firstSuccess, SystemPlaylist.set_status]
  | cons x rest ih =>
    intro i sp hq
    have hc := SystemPlaylist.consume_of_queue_cons hq
    by_cases hm : mat i
    · rw [consume_and_play_of_some_ok hc hm]
      simp [firstSuccess, hm, SystemPlaylist.set_status]
    · rw [consume_and_play_of_some_fail hc (by simpa using hm)]
      have hqA : SystemPlaylist.queueOf
          ((({ sp with guilds_playlists := mapUpdate sp.guilds_playlists g rest
             } : SystemPlaylist).set_status g true).set_status g false) g = rest := by
        simp [SystemPlaylist.queueOf_set_status, SystemPlaylist.queueOf_mapUpdate]
      rw [ih (i + 1) _ hqA]
      have hTop : firstSuccess mat i (x :: rest) =
          (firstSuccess mat (i + 1) rest).map (· + 1) := by
        simp [firstSuccess, hm]
      rw [hTop]
      cases hfs : firstSuccess mat (i + 1) rest with
      | some K =>
        simp [hfs, SystemPlaylist.set_status, SystemPlaylist.mapUpdate_same]
      | none =>
        cases rest with
        | nil =>
          simp [hfs, SystemPlaylist.set_status, SystemPlaylist.mapUpdate_same]
        | cons y t =>
          simp [hfs, SystemPlaylist.set_status, SystemPlaylist.mapUpdate_same]

theorem consume_and_play_on_end_closed (mat : Nat → Bool) (g : GuildId) :
    ∀ (q : List PlaylistItem) (i : Nat) (sp : SystemPlaylist), sp.queueOf g = q →
    consume_and_play_on_end mat g sp i =
      match firstSuccess mat i q with
      | some K =>
        { started := q[K]?
          state := { guilds_playlists := mapUpdate sp.guilds_playlists g (q.drop (K + 1)),
                     guilds_playing := sp.guilds_playing }
          cannotPlay := q.take K
          queueFinishedNotice := false
          attempts := K + 1 }
      | none =>
        { started := none
          state := { guilds_playlists := if q.isEmpty then sp.guilds_playlists
                       else mapUpdate sp.guilds_playlists g [],
                     guilds_playing := mapUpdate sp.guilds_playing g false }
          cannotPlay := q
          queueFinishedNotice := false
          attempts := q.length } := by
  intro q
  induction q with
  | nil =>
    intro i sp hq
    rw [consume_and_play_on_end_of_none (SystemPlaylist.consume_of_queue_nil hq)]
    simp [firstSuccess, SystemPlaylist.set_status]
  | cons x rest ih =>
    intro i sp hq
    have hc := SystemPlaylist.consume_of_queue_cons hq
    by_cases hm : mat i
    · rw [consume_and_play_on_end_of_some_ok hc hm]
      simp [firstSuccess, hm]
    · rw [consume_and_play_on_end_of_some_fail hc (by simpa using hm)]
      have hqA : SystemPlaylist.queueOf
          ({ sp with guilds_playlists := mapUpdate sp.guilds_playlists g rest
           } : SystemPlaylist) g = rest := by
        simp [SystemPlaylist.queueOf_mapUpdate]
      rw [ih (i + 1) _ hqA]
      have hTop : firstSuccess mat i (x :: rest) =
          (firstSuccess mat (i + 1) rest).map (· + 1) := by
        simp [firstSuccess, hm]
      rw [hTop]
      cases hfs : firstSuccess mat (i + 1) rest with
      | some K =>
        simp [hfs, SystemPlaylist.mapUpdate_same]
      | none =>
        cases rest with
        | nil =>
          simp [hfs, SystemPlaylist.mapUpdate_same]
        | cons y t =>
          simp [hfs, SystemPlaylist.mapUpdate_same]

/-- One page of a YouTube playlistItems response as consumed by the
pagination chain in `yt.rs`: the page's items (modelled by their ids)
and whether the response carried a `nextPageToken`. The server is
modelled as the sequence of pages the dependent token chain produces:
entry 0 answers the token-free request, and a page with `hasNext = true`
carries the token whose request the following entry answers. -/
structure YtPage where
  items : List String
  hasNext : Bool

namespace YoutubeAPI

/-- Embed of `YoutubeAPI::playlist_get_items`, `yt.rs` lines 120-160:
fetch the page for the given token; on a decodable page append the
recursion on its next-page token (when present); an error response
yields no items and ends the chain (modelled by the page list being
empty). Returns the accumulated items together with the number of page
requests issued; each request needs the token of the previous page, so
the chain is sequential by construction. -/
def playlist_get_items : List YtPage → List String × Nat
  | [] => ([], 1)
  | p :: rest =>
    if p.hasNext then
      let r := playlist_get_items rest
      (p.items ++ r.1, r.2 + 1)
    else
      (p.items, 1)

/-- Embed of `YoutubeAPI::playlist`, `yt.rs` lines 84-118: fetch the
first page without a token; if it decodes and carries a `nextPageToken`,
append `playlist_get_items` for that token, otherwise return just its
items; a failed first request yields no item list (the error variants
of `YoutubeResult`). Also counts the page requests issued. -/
def playlist : List YtPage → Option (List String) × Nat
  | [] => (none, 1)
  | p :: rest =>
    if p.hasNext then
      let r := playlist_get_items rest
      (some (p.items ++ r.1), r.2 + 1)
    else
      (some p.items, 1)

end YoutubeAPI

/-- A terminated token chain: every page except the last carries a
next-page token and the last page carries none. -/
def chainWF : List YtPage → Bool
  | [] => true
  | [p] => !p.hasNext
  | p :: q :: rest => p.hasNext && chainWF (q :: rest)

theorem playlist_get_items_of_chainWF :
    ∀ (pages : List YtPage), pages ≠ [] → chainWF pages = true →
      YoutubeAPI.playlist_get_items pages =
        ((pages.map (fun p => p.items)).flatten, pages.length) := by
  intro pages
  induction pages with
  | nil => intro hne; exact absurd rfl hne
  | cons p rest ih =>
    intro _ hwf
    cases rest with
    | nil =>
      have hp : p.hasNext = false := by simpa [chainWF] using hwf
      simp [YoutubeAPI.playlist_get_items, hp]
    | cons q t =>
      have hp : p.hasNext = true := by
        have := hwf
        simp only [chainWF, Bool.and_eq_true] at this
        exact this.1
      have hrest : chainWF (q :: t) = true := by
        have := hwf
        simp only [chainWF, Bool.and_eq_true] at this
        exact this.2
      have hrec := ih (by simp) hrest
      simp only [YoutubeAPI.playlist_get_items] at hrec
      simp only [YoutubeAPI.playlist_get_items, hp, if_true]
      rw [hrec]
      simp

namespace SystemPlaylist

theorem add_ok (sp : SystemPlaylist) (g : GuildId) (input : PotPlayInputType)
    (x : PlaylistItem) (rest : List PlaylistItem) :
    sp.add g input (Except.ok (x :: rest)) =
      (Except.ok (if input.is_url then ((x :: rest).length, x :: rest) else (1, [x])),
       { guilds_playlists :=
           mapUpdate sp.guilds_playlists g
             (sp.queueOf g ++ (if input.is_url then x :: rest else [x])),
         guilds_playing := sp.guilds_playing }) := by
  unfold add
  cases hurl : input.is_url with
  | true =>
    simp only [hurl, if_true]
    cases hpl : sp.guilds_playlists g with
    | none =>
      simp [hpl, queueOf, mapUpdate_same, mapUpdate_self, List.drop_left]
    | some q =>
      have hq : sp.queueOf g = q := by simp [queueOf, hpl]
      simp only [hpl, Option.isSome_some, if_true, hq]
      have hdrop : (q ++ x :: rest).length - (x :: rest).length = q.length := by simp
      rw [hdrop, List.drop_left]
  | false =>
    simp only [hurl, if_false, Bool.false_eq_true]
    cases hpl : sp.guilds_playlists g with
    | none =>
      simp [hpl, queueOf, mapUpdate_same, mapUpdate_self, List.drop_left]
    | some q =>
      have hq : sp.queueOf g = q := by simp [queueOf, hpl]
      simp only [hpl, Option.isSome_some, if_true, hq]
      have hdrop : (q ++ [x]).length - 1 = q.length := by simp
      rw [hdrop, List.drop_left]

end SystemPlaylist

theorem drain_of_none {sp sp1 : SystemPlaylist} {g : GuildId}
    (h : sp.consume g = (none, sp1)) : drain sp g = [] := by
  rw [drain]
  split
  case _ x sp2 heq => rw [h] at heq; simp at heq
  case _ sp2 heq => rfl

theorem drain_of_some {sp sp1 : SystemPlaylist} {g : GuildId} {x : PlaylistItem}
    (h : sp.consume g = (some x, sp1)) : drain sp g = x :: drain sp1 g := by
  rw [drain]
  split
  case _ y sp2 heq =>
    rw [h] at heq
    simp only [Prod.mk.injEq, Option.some.injEq] at heq
    rw [heq.1, heq.2]
  case _ sp2 heq => rw [h] at heq; simp at heq

theorem drain_eq_queueOf :
    ∀ (q : List PlaylistItem) (sp : SystemPlaylist) (g : GuildId),
      sp.queueOf g = q → drain sp g = q := by
  intro q
  induction q with
  | nil =>
    intro sp g hq
    exact drain_of_none (SystemPlaylist.consume_of_queue_nil hq)
  | cons x rest ih =>
    intro sp g hq
    have hc := SystemPlaylist.consume_of_queue_cons hq
    rw [drain_of_some hc]
    have : SystemPlaylist.queueOf
        ({ sp with guilds_playlists := mapUpdate sp.guilds_playlists g rest
         } : SystemPlaylist) g = rest := by
      simp [SystemPlaylist.queueOf_mapUpdate]
    rw [ih _ g this]

/-- Concrete item constructor used by witnesses and counterexamples. -/
def mkItem (s : String) : PlaylistItem :=
  { id := s, title := s, original_url := s, extractor := "youtube",
    thumbnail := none, duration := none, playlist_id := none,
    webpage_url := none, is_live := none, was_live := none,
    backend := some YOUTUBE_DL_BACKEND.YT_DLP }

def itemA : PlaylistItem := mkItem "a"

def itemB : PlaylistItem := mkItem "b"

def itemC : PlaylistItem := mkItem "c"

/-- A Spotify playlist URL as the play command classifies it
(`commands.rs` lines 276-284: host ends with `open.spotify.com`). -/
def spotifyPlaylistUrl : UrlModel :=
  { host := some "open.spotify.com"
    pathSegments := ["playlist", "37i9dQZF1DXcBWIGoYBM5M"]
    queryPairs := [] }

/-- State with the single-item queue `[itemA]` for guild 0 and no playing
flag recorded for any guild. -/
def spOneItem : SystemPlaylist :=
  { guilds_playlists := fun g => if g = 0 then some [itemA] else none
    guilds_playing := fun _ => none }

/-- State with queue `[itemA, itemB, itemC]` for guild 0 and no playing
flag recorded. -/
def spThreeItems : SystemPlaylist :=
  { guilds_playlists := fun g => if g = 0 then some [itemA, itemB, itemC] else none
    guilds_playing := fun _ => none }

/-- State with queue `[itemA, itemB]` for guild 0 and the playing flag set
for guild 0. -/
def spPlayingTwo : SystemPlaylist :=
  { guilds_playlists := fun g => if g = 0 then some [itemA, itemB] else none
    guilds_playing := fun g => if g = 0 then some true else none }

/-- C6: if resolution yields zero items, `SystemPlaylist::add` returns the
`NoItemsResolved` error ("No items in playlist") and the state is
completely unchanged — no queue entry is created for an unseen tenant
and no existing queue is touched; a resolution error likewise leaves
the state unchanged. -/
theorem add_no_items_resolved_unchanged (sp : SystemPlaylist) (g : GuildId)
    (input : PotPlayInputType) :
    sp.add g input (Except.ok []) = (Except.error "No items in playlist", sp)
    ∧ (∀ e, sp.add g input (Except.error e) = (Except.error e, sp)) := by
  constructor
  · rfl
  · intro e; rfl

/-- C8: `consume` is total (defined for every state, so it cannot panic or
block); on an unknown tenant or an empty queue it returns `none` and
leaves the state unchanged; its returned item is always the queue head;
and whenever it returns an item the new queue is exactly the old queue
without its head (the item is removed, never just peeked). -/
theorem consume_total_safe (sp : SystemPlaylist) (g : GuildId) :
    (sp.guilds_playlists g = none → sp.consume g = (none, sp))
    ∧ (sp.queueOf g = [] → sp.consume g = (none, sp))
    ∧ (sp.consume g).1 = (sp.queueOf g).head?
    ∧ (∀ x sp1, sp.consume g = (some x, sp1) →
        sp.queueOf g = x :: sp1.queueOf g) := by
  refine ⟨?_, ?_, ?_, ?_⟩
  · intro hnone
    unfold SystemPlaylist.consume
    rw [hnone]
  · exact SystemPlaylist.consume_of_queue_nil
  · cases hq : sp.queueOf g with
    | nil => rw [SystemPlaylist.consume_of_queue_nil hq]; rfl
    | cons x rest => rw [SystemPlaylist.consume_of_queue_cons hq]; rfl
  · intro x sp1 h
    exact SystemPlaylist.consume_some_queue h

/-- Witness for `consume_total_safe` at concrete inputs: a tenant never
seen by `SystemPlaylist.new` yields `(none, unchanged)`, and on
`spOneItem` the consumed item is the queue head `itemA`. -/
theorem consume_total_safe_witness :
    SystemPlaylist.new.consume 0 = (none, SystemPlaylist.new)
    ∧ (spOneItem.consume 0).1 = some itemA := by
  constructor
  · exact (consume_total_safe SystemPlaylist.new 0).1 rfl
  · rw [(consume_total_safe spOneItem 0).2.2.1]; rfl

/-- C9: on the well-formed URL https://www.youtube.com/shorts — host ends
with "youtube.com", the query has neither a "list" nor a "v" parameter,
and the path has exactly one segment — `youtube_url_extractor` hits an
out-of-bounds index reading `path_segments[1]` (a panic in the Rust
code) instead of returning a `YoutubeUrlType::None` classification. -/
theorem youtube_url_extractor_shorts_panics :
    youtube_url_extractor
      { host := some "www.youtube.com", pathSegments := ["shorts"], queryPairs := [] } =
      ExtractOutcome.panicked := by
  decide

/-- C10: `clear` on a tenant reports whether that tenant had a queue
entry; it empties only that tenant's queue (every other tenant's entry
is untouched), never touches any playing flag, and keeps the emptied
entry in place, so clearing the same tenant again reports the same
result as the first call (in particular `true` stays `true`). -/
theorem clear_only_clears_target_queue (sp : SystemPlaylist) (g g' : GuildId) :
    (sp.clear g).1 = (sp.guilds_playlists g).isSome
    ∧ (sp.clear g).2.guilds_playing = sp.guilds_playing
    ∧ (sp.clear g).2.guilds_playlists g' =
        (if g' = g then
           (if (sp.guilds_playlists g).isSome then some ([] : List PlaylistItem)
            else none)
         else sp.guilds_playlists g')
    ∧ ((sp.clear g).2.clear g).1 = (sp.clear g).1 := by
  unfold SystemPlaylist.clear
  cases hpl : sp.guilds_playlists g with
  | none =>
    by_cases hg : g' = g
    · simp [hpl, hg]
    · simp [hpl, hg]
  | some q =>
    by_cases hg : g' = g
    · simp [hpl, hg, mapUpdate]
    · simp [hpl, hg, mapUpdate]

/-- C5: strict FIFO per tenant. Draining a tenant by successive `consume`
calls returns exactly the queue content in order, `consume` always
returns the current head and leaves the tail, and every `add` appends
its items at the end of the queue (all resolved items for a plain URL
input, the first resolved item otherwise), so insertion order is play
order; a successful `consume` shortens the queue by exactly its head. -/
theorem consume_fifo_order (sp : SystemPlaylist) (g : GuildId)
    (input : PotPlayInputType) (x : PlaylistItem) (rest : List PlaylistItem) :
    drain sp g = sp.queueOf g
    ∧ (sp.consume g).1 = (sp.queueOf g).head?
    ∧ (sp.consume g).2.queueOf g = (sp.queueOf g).tail
    ∧ (sp.add g input (Except.ok (x :: rest))).2.queueOf g =
        sp.queueOf g ++ (if input.is_url then x :: rest else [x]) := by
  refine ⟨drain_eq_queueOf (sp.queueOf g) sp g rfl, ?_, ?_, ?_⟩
  · cases hq : sp.queueOf g with
    | nil => rw [SystemPlaylist.consume_of_queue_nil hq]; rfl
    | cons y t => rw [SystemPlaylist.consume_of_queue_cons hq]; rfl
  · cases hq : sp.queueOf g with
    | nil => rw [SystemPlaylist.consume_of_queue_nil hq, hq]; rfl
    | cons y t =>
      rw [SystemPlaylist.consume_of_queue_cons hq]
      simp [SystemPlaylist.queueOf, mapUpdate]
  · rw [SystemPlaylist.add_ok]
    simp [SystemPlaylist.queueOf, mapUpdate]

/-- C1 (amended): `add` appends all resolved items, in resolved order,
only when the input was classified as a plain URL
(`PotPlayInputType::Url`), returning their count and the appended slice;
for a Spotify URL input or a free-text search it appends exactly the
first resolved item and returns count 1 with that one-item slice —
`is_url` is false for the `SpotifyUrl` variant, so a Spotify playlist
expansion is NOT appended wholesale. -/
theorem add_playlist_expansion_appends_all (sp : SystemPlaylist) (g : GuildId)
    (input : PotPlayInputType) (x : PlaylistItem) (rest : List PlaylistItem) :
    (sp.add g input (Except.ok (x :: rest))).1 =
      Except.ok (if input.is_url then ((x :: rest).length, x :: rest) else (1, [x]))
    ∧ (sp.add g input (Except.ok (x :: rest))).2.queueOf g =
        sp.queueOf g ++ (if input.is_url then x :: rest else [x])
    ∧ (∀ u, (PotPlayInputType.Url u).is_url = true)
    ∧ (∀ u, (PotPlayInputType.SpotifyUrl u).is_url = false)
    ∧ (∀ q, (PotPlayInputType.Search q).is_url = false) := by
  refine ⟨?_, ?_, fun _ => rfl, fun _ => rfl, fun _ => rfl⟩
  · rw [SystemPlaylist.add_ok]
  · rw [SystemPlaylist.add_ok]
    simp [SystemPlaylist.queueOf, mapUpdate]

/-- C1 counterexample: a Spotify playlist URL whose resolution produced
the two items `[itemA, itemB]` leads `add` to append only `itemA` and
return count 1 with the one-item slice — not all resolved items, even
though the input is URL-shaped and the resolution was a multi-item
playlist expansion. -/
theorem add_spotify_expansion_counterexample :
    (SystemPlaylist.new.add 0 (PotPlayInputType.SpotifyUrl spotifyPlaylistUrl)
        (Except.ok [itemA, itemB])).1 = Except.ok (1, [itemA])
    ∧ (SystemPlaylist.new.add 0 (PotPlayInputType.SpotifyUrl spotifyPlaylistUrl)
        (Except.ok [itemA, itemB])).2.queueOf 0 = [itemA]
    ∧ [itemA].length ≠ [itemA, itemB].length := by
  refine ⟨rfl, rfl, by decide⟩

/-- C2 (amended): for the same tenant queue and the same sequence of
materialization outcomes, the command-path advance (`consume_and_play`)
and the completion-path advance (`consume_and_play_on_end`) consume the
same items in the same order, start playback on the same item, emit one
failure notice per failed item (the same items, in the same order),
perform the same number of materialization attempts, and leave every
tenant's queue in the same final state. Their handling of the playing
flag differs on success: the command path always leaves the flag equal
to "an item was started" (true on success, false on exhaustion), while
the completion path never sets the flag true — on success it leaves the
tenant's flag exactly as it was, and only on exhaustion sets it false.
(The completion path also sends no "queue finished" notice itself; its
caller does, and additionally releases the voice connection.) -/
theorem advance_paths_equivalent (mat : Nat → Bool) (g : GuildId)
    (sp : SystemPlaylist) (i : Nat) :
    (consume_and_play mat g sp i).started = (consume_and_play_on_end mat g sp i).started
    ∧ (consume_and_play mat g sp i).state.guilds_playlists =
        (consume_and_play_on_end mat g sp i).state.guilds_playlists
    ∧ (consume_and_play mat g sp i).cannotPlay =
        (consume_and_play_on_end mat g sp i).cannotPlay
    ∧ (consume_and_play mat g sp i).attempts =
        (consume_and_play_on_end mat g sp i).attempts
    ∧ (consume_and_play mat g sp i).state.is_playing g =
        (consume_and_play mat g sp i).started.isSome
    ∧ (consume_and_play_on_end mat g sp i).state.is_playing g =
        (if (consume_and_play mat g sp i).started.isSome then sp.is_playing g
         else false)
    ∧ (consume_and_play mat g sp i).queueFinishedNotice =
        (consume_and_play mat g sp i).started.isNone
    ∧ (consume_and_play_on_end mat g sp i).queueFinishedNotice = false := by
  rw [consume_and_play_closed mat g (sp.queueOf g) i sp rfl,
      consume_and_play_on_end_closed mat g (sp.queueOf g) i sp rfl]
  cases hfs : firstSuccess mat i (sp.queueOf g) with
  | some K =>
    have hlt := firstSuccess_lt hfs
    have hsome : (sp.queueOf g)[K]?.isSome = true := by
      simp [List.getElem?_eq_getElem hlt]
    simp [hsome, SystemPlaylist.is_playing, mapUpdate]
  | none =>
    simp [SystemPlaylist.is_playing, mapUpdate]

/-- C2 counterexample: same tenant queue `[itemA]`, same materialization
outcomes (first attempt succeeds), same starting state (no playing flag
recorded): both paths start `itemA`, but the command path leaves the
tenant's playing flag true while the completion path leaves it false —
the two advance paths do NOT leave the playing flag in the same final
state. -/
theorem advance_paths_playing_flag_counterexample :
    (consume_and_play (fun _ => true) 0 spOneItem 0).started = some itemA
    ∧ (consume_and_play_on_end (fun _ => true) 0 spOneItem 0).started = some itemA
    ∧ (consume_and_play (fun _ => true) 0 spOneItem 0).state.is_playing 0 = true
    ∧ (consume_and_play_on_end (fun _ => true) 0 spOneItem 0).state.is_playing 0 = false := by
  have h1 := consume_and_play_closed (fun _ => true) 0 [itemA] 0 spOneItem rfl
  have h2 := consume_and_play_on_end_closed (fun _ => true) 0 [itemA] 0 spOneItem rfl
  have hfs : firstSuccess (fun _ => true) 0 [itemA] = some 0 := rfl
  rw [hfs] at h1 h2
  rw [h1, h2]
  refine ⟨rfl, rfl, ?_, rfl⟩
  simp [SystemPlaylist.is_playing, mapUpdate]

/-- C3: advance-retry behaviour of `consume_and_play` (the recursion is
total in this embedding — it is defined by well-founded recursion on the
queue length, each step consuming one item). If materialization fails
for the first K attempts and succeeds on attempt K+1 with K below the
queue length, one advance run makes exactly K+1 materialization
attempts, emits exactly K "Cannot play" notices (for the first K queue
items, in order), and starts item K+1 (0-based index K), leaving the
rest of the queue. If every attempt fails (K equal to the queue
length), it makes K attempts, emits K notices (one per item), starts
nothing, sets the tenant's playing flag false and signals queue
finished. -/
theorem advance_retry_termination (mat : Nat → Bool) (g : GuildId)
    (sp : SystemPlaylist) (K : Nat) (hf : ∀ j, j < K → mat j = false) :
    (∀ (hK : K < (sp.queueOf g).length), mat K = true →
      (consume_and_play mat g sp 0).attempts = K + 1
      ∧ (consume_and_play mat g sp 0).cannotPlay = (sp.queueOf g).take K
      ∧ (consume_and_play mat g sp 0).cannotPlay.length = K
      ∧ (consume_and_play mat g sp 0).started = some ((sp.queueOf g).get ⟨K, hK⟩)
      ∧ (consume_and_play mat g sp 0).state.queueOf g = (sp.queueOf g).drop (K + 1))
    ∧ (K = (sp.queueOf g).length →
      (consume_and_play mat g sp 0).attempts = K
      ∧ (consume_and_play mat g sp 0).cannotPlay = sp.queueOf g
      ∧ (consume_and_play mat g sp 0).cannotPlay.length = K
      ∧ (consume_and_play mat g sp 0).started = none
      ∧ (consume_and_play mat g sp 0).state.is_playing g = false
      ∧ (consume_and_play mat g sp 0).queueFinishedNotice = true) := by
  constructor
  · intro hK hsucc
    have hfs : firstSuccess mat 0 (sp.queueOf g) = some K := by
      apply firstSuccess_of_leading_failures (i := 0)
      · intro j hj
        simpa using hf j hj
      · exact hK
      · simpa using hsucc
    rw [consume_and_play_closed mat g (sp.queueOf g) 0 sp rfl]
    rw [hfs]
    refine ⟨rfl, rfl, ?_, ?_, ?_⟩
    · simp [List.length_take, Nat.min_eq_left (Nat.le_of_lt hK)]
    · simp [List.getElem?_eq_getElem hK, List.get_eq_getElem]
    · simp [SystemPlaylist.queueOf, mapUpdate]
  · intro hN
    have hfs : firstSuccess mat 0 (sp.queueOf g) = none := by
      apply firstSuccess_of_all_failures
      intro j hj
      have : j < K := by omega
      simpa using hf j this
    rw [consume_and_play_closed mat g (sp.queueOf g) 0 sp rfl]
    rw [hfs]
    refine ⟨hN.symm, rfl, by rw [hN], rfl, ?_, rfl⟩
    simp [SystemPlaylist.is_playing, mapUpdate]

/-- Materialization oracle for the C3 witness: fails on attempt 0 and
succeeds on attempt 1. -/
def mat3 : Nat → Bool := fun j => j == 1

/-- Witness for `advance_retry_termination`: on the queue
`[itemA, itemB, itemC]` with the first attempt failing and the second
succeeding (K = 1), the advance makes 2 attempts, notifies "Cannot
play" exactly for `itemA`, and starts `itemB`. -/
theorem advance_retry_termination_witness :
    (consume_and_play mat3 0 spThreeItems 0).attempts = 2
    ∧ (consume_and_play mat3 0 spThreeItems 0).cannotPlay = [itemA]
    ∧ (consume_and_play mat3 0 spThreeItems 0).started = some itemB := by
  have hf : ∀ j, j < 1 → mat3 j = false := by
    intro j hj
    have hj0 : j = 0 := by omega
    rw [hj0]
    rfl
  obtain ⟨h1, h2, _h3, h4, _h5⟩ :=
    (advance_retry_termination mat3 0 spThreeItems 1 hf).1 (by decide) rfl
  refine ⟨h1, ?_, ?_⟩
  · rw [h2]; rfl
  · rw [h4]; rfl

/-- C4: `song_skip` always stops current playback. If the tenant's
playing flag is false it answers "Nothing to play", releases nothing
and leaves the whole state (queue included) untouched. If the flag is
true and, after skipping the first K failing items, item K exists and
materializes, it answers "Song skipped", playback moves to that item
and the connection is kept. If the flag is true and the queue is empty
or exhausts entirely through failures, it answers "Queue ended",
starts nothing and releases the voice connection. -/
theorem skip_semantics (mat : Nat → Bool) (g : GuildId) (sp : SystemPlaylist)
    (K : Nat) (hf : ∀ j, j < K → mat j = false) :
    (sp.is_playing g = false →
      song_skip mat g sp =
        { message := "Nothing to play", state := sp, cannotPlay := [],
          stopped := true, connectionReleased := false, startedItem := none })
    ∧ (sp.is_playing g = true →
        (song_skip mat g sp).stopped = true
        ∧ (∀ (hK : K < (sp.queueOf g).length), mat K = true →
            (song_skip mat g sp).message = "Song skipped"
            ∧ (song_skip mat g sp).startedItem = some ((sp.queueOf g).get ⟨K, hK⟩)
            ∧ (song_skip mat g sp).connectionReleased = false)
        ∧ (K = (sp.queueOf g).length →
            (song_skip mat g sp).message = "Queue ended"
            ∧ (song_skip mat g sp).startedItem = none
            ∧ (song_skip mat g sp).connectionReleased = true)) := by
  constructor
  · intro hp
    simp [song_skip, hp]
  · intro hp
    refine ⟨?_, ?_, ?_⟩
    · simp only [song_skip, hp, if_true]
      cases hst : (consume_and_play mat g sp 0).started <;> simp [hst]
    · intro hK hsucc
      have hfs : firstSuccess mat 0 (sp.queueOf g) = some K := by
        apply firstSuccess_of_leading_failures (i := 0)
        · intro j hj
          simpa using hf j hj
        · exact hK
        · simpa using hsucc
      have hstart : (consume_and_play mat g sp 0).started =
          some ((sp.queueOf g).get ⟨K, hK⟩) := by
        rw [consume_and_play_closed mat g (sp.queueOf g) 0 sp rfl, hfs]
        simp [List.getElem?_eq_getElem hK, List.get_eq_getElem]
      refine ⟨?_, ?_, ?_⟩ <;> simp [song_skip, hp, hstart]
    · intro hN
      have hfs : firstSuccess mat 0 (sp.queueOf g) = none := by
        apply firstSuccess_of_all_failures
        intro j hj
        have : j < K := by omega
        simpa using hf j this
      have hstart : (consume_and_play mat g sp 0).started = none := by
        rw [consume_and_play_closed mat g (sp.queueOf g) 0 sp rfl, hfs]
      refine ⟨?_, ?_, ?_⟩ <;> simp [song_skip, hp, hstart]

/-- Witness for `skip_semantics`: on `spPlayingTwo` (queue
`[itemA, itemB]`, playing flag true) with every materialization
succeeding (K = 0), skipping answers "Song skipped", moves playback to
`itemA` and keeps the voice connection. -/
theorem skip_semantics_witness :
    (song_skip (fun _ => true) 0 spPlayingTwo).message = "Song skipped"
    ∧ (song_skip (fun _ => true) 0 spPlayingTwo).startedItem = some itemA
    ∧ (song_skip (fun _ => true) 0 spPlayingTwo).connectionReleased = false := by
  have hf : ∀ j, j < 0 → (fun _ => true) j = false := by
    intro j hj
    exact absurd hj (Nat.not_lt_zero j)
  obtain ⟨h1, h2, h3⟩ :=
    ((skip_semantics (fun _ => true) 0 spPlayingTwo 0 hf).2 rfl).2.1 (by decide) rfl
  refine ⟨h1, ?_, h3⟩
  rw [h2]
  rfl

/-- C7: when the first playlist page carries a next-page token, the
resolver follows the token chain page by page until a page arrives with
no next-page token, and returns the concatenation of all pages' items
in page order; it issues exactly one request per page of the chain
(each request needs the token returned by the previous page, so the
chain is sequential — the model's page list is by construction the
sequence of dependent responses). -/
theorem playlist_pagination_accumulates (pages : List YtPage)
    (hne : pages ≠ []) (hwf : chainWF pages = true) :
    YoutubeAPI.playlist pages =
      (some ((pages.map (fun p => p.items)).flatten), pages.length) := by
  cases pages with
  | nil => exact absurd rfl hne
  | cons p rest =>
    cases rest with
    | nil =>
      have hp : p.hasNext = false := by simpa [chainWF] using hwf
      simp [YoutubeAPI.playlist, hp]
    | cons q t =>
      have hp : p.hasNext = true := by
        simp only [chainWF, Bool.and_eq_true] at hwf
        exact hwf.1
      have hrest : chainWF (q :: t) = true := by
        simp only [chainWF, Bool.and_eq_true] at hwf
        exact hwf.2
      have hrec := playlist_get_items_of_chainWF (q :: t) (by simp) hrest
      simp only [YoutubeAPI.playlist, hp, if_true]
      rw [hrec]
      simp

/-- A three-page token chain used as the pagination witness. -/
def pagesW : List YtPage :=
  [{ items := ["a", "b"], hasNext := true },
   { items := ["c"], hasNext := true },
   { items := ["d"], hasNext := false }]

/-- Witness for `playlist_pagination_accumulates`: the three-page chain
`pagesW` yields all four items in page order with exactly three page
requests. -/
theorem playlist_pagination_accumulates_witness :
    YoutubeAPI.playlist pagesW = (some ["a", "b", "c", "d"], 3) := by
  have h := playlist_pagination_accumulates pagesW (by simp [pagesW]) rfl
  rw [h]
  rfl
